import Mathlib

/-!
# Block-processing pipeline: filter processor and algod importer

A shallow embedding of

* `conduit/plugins/processors/filterprocessor/filter_processor.go`
  (`FilterProcessor.Init`, `FilterProcessor.Process`),
* `conduit/plugins/importers/algod/algod_importer.go`
  (`algodImporter.Init`, `algodImporter.GetBlock`, `algodImporter.OnComplete`), and
* `idb/postgres/internal/encoding/types.go`
  (`byteArray.MarshalText`, `byteArray.UnmarshalText`).

Go values of type `error` are `Option Error` (`none` is `nil`); a Go function
returning `(T, error)` returns a pair, or an `Except` when the value is unused
on failure.  Collaborators whose code lives in other packages (`fields`,
`expression`, the algod REST client, `msgpack`, `net/url`) are parameters.
Logging and metrics observation have no influence on control flow and are left
out.
-/

namespace Indexer

/-! ## Shared data -/

/-- Go `error` values.  `wrap` is `fmt.Errorf` with a `%w` verb, `errorf` is
`fmt.Errorf` with plain arguments, `ext` is an error produced by a collaborator. -/
inductive Error where
  | ext (code : Nat)
  | errorf (format : String) (args : List String)
  | wrap (format : String) (inner : Error)
deriving DecidableEq, Repr

abbrev Bytes := List Nat

namespace sdk

/-- The block header: the round and the remaining, uninterpreted, fields. -/
structure BlockHeader where
  Round : Nat
  rest : Nat
deriving DecidableEq, Repr

/-- A ledger state delta, uninterpreted. -/
structure LedgerStateDelta where
  raw : Bytes
deriving DecidableEq, Repr

/-- A block: header and ordered transaction set. -/
structure Block (Txn : Type) where
  BlockHeader : sdk.BlockHeader
  Payset : List Txn
deriving DecidableEq, Repr

end sdk

namespace data

/-- One round of data: `data.BlockData`. -/
structure BlockData (Txn : Type) where
  BlockHeader : sdk.BlockHeader
  Payset : List Txn
  Delta : Option sdk.LedgerStateDelta
  Certificate : Option Bytes
deriving DecidableEq, Repr

/-- The Go zero value `data.BlockData{}`. -/
def BlockData.zero {Txn : Type} : BlockData Txn :=
  { BlockHeader := { Round := 0, rest := 0 }, Payset := [], Delta := none, Certificate := none }

/-- The method `BlockData.Round()`: the header round. -/
def BlockData.Round {Txn : Type} (b : BlockData Txn) : Nat := b.BlockHeader.Round

end data

/-! ## Filter processor -/

namespace fields

/-- The type `fields.Filter`: an operation and its searchers. -/
structure Filter (S : Type) where
  Op : String
  Searchers : List S
deriving DecidableEq, Repr

end fields

namespace filterprocessor

/-- One searcher configuration (`SubConfig`). -/
structure SubConfig where
  FilterTag : String
  ExpressionType : String
  Expression : String
deriving DecidableEq, Repr

/-- The filter configuration.  A Go `map[string][]SubConfig` is the list of its
entries; `len` of the map is the length of that list. -/
structure Config where
  SearchInner : Bool
  Filters : List (List (String × List SubConfig))
deriving DecidableEq, Repr

/-- The functions of the packages `plugins`, `fields` and `expression` that `Init`
calls.  `Raw` is the undecoded plugin configuration, `T` a resolved field type,
`E` a compiled expression, `S` a searcher. -/
structure Env (Raw T E S : Type) where
  UnmarshalConfig : Raw → Except Error Config
  ValidFieldOperation : String → Bool
  LookupFieldByTag : String → Except Error T
  MakeExpression : String → String → T → Except Error E
  MakeFieldSearcher : E → String → String → Bool → Except Error S

/-- The processor: `FilterProcessor` (logger and context left out). -/
structure FilterProcessor (S : Type) where
  FieldFilters : List (fields.Filter S)
  cfg : Config

/-- The freshly constructed `&FilterProcessor{}`. -/
def FilterProcessor.fresh {S : Type} : FilterProcessor S :=
  { FieldFilters := [], cfg := { SearchInner := false, Filters := [] } }

section Init
variable {Raw T E S : Type}

/-- The body of the loop over `subConfigs` (lines 88-101): resolve the field,
build the expression, build the searcher. -/
def makeSearcher (env : Env Raw T E S) (searchInner : Bool) (subConfig : SubConfig) :
    Except Error S :=
  match env.LookupFieldByTag subConfig.FilterTag with
  | .error err => .error err
  | .ok t =>
    match env.MakeExpression subConfig.ExpressionType subConfig.Expression t with
    | .error err => .error (.wrap "filter processor Init(): could not make expression: %w" err)
    | .ok exp =>
      match env.MakeFieldSearcher exp subConfig.ExpressionType subConfig.FilterTag searchInner with
      | .error err =>
        .error (.wrap "filter processor Init(): error making field searcher - %w" err)
      | .ok searcher => .ok searcher

/-- The loop `for _, subConfig := range subConfigs` (lines 86-104), with the
searcher list built so far. -/
def searcherLoop (env : Env Raw T E S) (searchInner : Bool) :
    List SubConfig → List S → Except Error (List S)
  | [], searcherList => .ok searcherList
  | subConfig :: rest, searcherList =>
    match makeSearcher env searchInner subConfig with
    | .error err => .error err
    | .ok searcher => searcherLoop env searchInner rest (searcherList ++ [searcher])

/-- The loop `for key, subConfigs := range configMaps` (lines 78-113) over the
entries of one group map; the state is `a.FieldFilters`. -/
def entryLoop (env : Env Raw T E S) (searchInner : Bool) :
    List (String × List SubConfig) → List (fields.Filter S) →
      List (fields.Filter S) × Option Error
  | [], ffs => (ffs, none)
  | (key, subConfigs) :: rest, ffs =>
    if !env.ValidFieldOperation key then
      (ffs, some (.errorf "filter processor Init(): filter key was not a valid value: %s" [key]))
    else
      match searcherLoop env searchInner subConfigs [] with
      | .error err => (ffs, some err)
      | .ok searcherList =>
        entryLoop env searchInner rest (ffs ++ [{ Op := key, Searchers := searcherList }])

/-- The loop `for _, configMaps := range a.cfg.Filters` (lines 70-114). -/
def groupLoop (env : Env Raw T E S) (searchInner : Bool) :
    List (List (String × List SubConfig)) → List (fields.Filter S) →
      List (fields.Filter S) × Option Error
  | [], ffs => (ffs, none)
  | configMaps :: rest, ffs =>
    if configMaps.length ≠ 1 then
      (ffs, some (.errorf
        "filter processor Init(): illegal filter tag formation.  tag length was: %d"
        [toString configMaps.length]))
    else
      match entryLoop env searchInner configMaps ffs with
      | (ffs1, some err) => (ffs1, some err)
      | (ffs1, none) => groupLoop env searchInner rest ffs1

/-- The method `FilterProcessor.Init` (lines 60-118): the receiver after the call and
the returned error. -/
def FilterProcessor.Init (env : Env Raw T E S) (a : FilterProcessor S) (cfg : Raw) :
    FilterProcessor S × Option Error :=
  match env.UnmarshalConfig cfg with
  | .error err => (a, some (.wrap "filter processor init error: %w" err))
  | .ok c =>
    let r := groupLoop env c.SearchInner c.Filters a.FieldFilters
    ({ FieldFilters := r.1, cfg := c }, r.2)

end Init

section Process
variable {S Txn : Type}

/-- The loop of `Process` (lines 129-134): each group's `SearchAndFilter` (a
method of package `fields`, here the parameter `saf`) is applied to the payset
the previous one returned. -/
def processLoop (saf : fields.Filter S → List Txn → Except Error (List Txn)) :
    List (fields.Filter S) → List Txn → Except Error (List Txn)
  | [], payset => .ok payset
  | searcher :: rest, payset =>
    match saf searcher payset with
    | .error err => .error err
    | .ok payset1 => processLoop saf rest payset1

/-- The method `FilterProcessor.Process` (lines 126-137). -/
def FilterProcessor.Process (saf : fields.Filter S → List Txn → Except Error (List Txn))
    (a : FilterProcessor S) (input : data.BlockData Txn) :
    data.BlockData Txn × Option Error :=
  match processLoop saf a.FieldFilters input.Payset with
  | .error err => (data.BlockData.zero, some err)
  | .ok payset => ({ input with Payset := payset }, none)

end Process

end filterprocessor

/-! ## Algod importer -/

namespace models

/-- The decoded block response: `models.BlockResponse`. -/
structure BlockResponse (Txn : Type) where
  Block : sdk.Block Txn
  Cert : Option Bytes
deriving DecidableEq, Repr

end models

namespace algodimporter

def archivalModeStr : String := "archival"
def followerModeStr : String := "follower"

def archivalMode : Int := 0
def followerMode : Int := 1

def retries : Nat := 5

/-- The importer configuration: the fields `Init` reads. -/
structure Config where
  Mode : String
  NetAddr : String
  Token : String
deriving DecidableEq, Repr

/-- The handle `algod.MakeClient` returns. -/
structure Client where
  address : String
  token : String
deriving DecidableEq, Repr

/-- The importer: `algodImporter` (logger, context and cancel function left out;
`aclient` is `none` for the nil pointer). -/
structure algodImporter where
  aclient : Option Client
  cfg : Config
  mode : Int
deriving DecidableEq, Repr

/-- The value `New()` returns: `&algodImporter{}`. -/
def New : algodImporter :=
  { aclient := none, cfg := { Mode := "", NetAddr := "", Token := "" }, mode := 0 }

/-- The requests the importer sends through the algod client, and the creation
of that client. -/
inductive Call where
  | MakeClient (address token : String)
  | GetGenesis
  | StatusAfterBlock (round : Nat)
  | BlockRaw (round : Nat)
  | GetRaw (path : String)
  | SetSyncRound (round : Nat)
deriving DecidableEq, Repr

/-- The upstream block source and the shared context, as a machine over a state
`σ`: every request returns its response and the next state; `ctxErr` is what
`ctx.Err()` returns in a state (`none` while the context is not cancelled). -/
structure Upstream (σ : Type) where
  GetGenesis : σ → Except Error String × σ
  StatusAfterBlock : Nat → σ → Option Error × σ
  BlockRaw : Nat → σ → Except Error Bytes × σ
  GetRaw : String → σ → Except Error Bytes × σ
  SetSyncRound : Nat → σ → Option Error × σ
  ctxErr : σ → Option Error

/-- The library functions used by the importer: configuration decoding,
`url.Parse` (only the scheme of the result is read), `algod.MakeClient`,
`json.LenientDecode` on a genesis, the comparison with `sdk.Genesis{}`, and
`msgpack.Decode` on a block response and on a state delta. -/
structure Lib (Raw G Txn : Type) where
  UnmarshalConfig : Raw → Except Error Config
  urlParseScheme : String → Except Error String
  MakeClient : String → String → Except Error Client
  LenientDecodeGenesis : String → Except Error G
  genesisIsZero : G → Bool
  decodeBlock : Bytes → Except Error (models.BlockResponse Txn)
  decodeDelta : Bytes → Except Error sdk.LedgerStateDelta

/-- The upstream state together with the requests issued so far, oldest first. -/
structure World (σ : Type) where
  st : σ
  calls : List Call

/-- Record a request and move to the upstream state it left. -/
def World.record {σ : Type} (w : World σ) (c : Call) (s : σ) : World σ :=
  { st := s, calls := w.calls ++ [c] }

/-- The text of an error, for the `%v` verb. -/
def errorText : Error → String
  | .ext code => "error " ++ toString code
  | .errorf format args => String.intercalate " " (format :: args)
  | .wrap format inner => format ++ " " ++ errorText inner

/-- The error `GetBlock` returns when the loop runs out. -/
def finishedRetriesErr : Error :=
  .errorf ("finished retries without fetching a block. Check that the indexer is set to " ++
    "start at a round that the current algod node can handle") []

/-- The `uint64` subtraction `rnd - 1`. -/
def u64pred (rnd : Nat) : Nat := (rnd + 2 ^ 64 - 1) % 2 ^ 64

/-- The `uint64` addition `rnd + 1`. -/
def u64succ (rnd : Nat) : Nat := (rnd + 1) % 2 ^ 64

section Importer
variable {σ Raw G Txn : Type}

/-- The method `algodImporter.OnComplete` (lines 69-75). -/
def algodImporter.OnComplete (up : Upstream σ) (algodImp : algodImporter)
    (input : data.BlockData Txn) (w : World σ) : Option Error × World σ :=
  if algodImp.mode ≠ followerMode then
    (none, w)
  else
    match up.SetSyncRound (u64succ input.Round) w.st with
    | (err, s) => (err, w.record (.SetSyncRound (u64succ input.Round)) s)

/-- The method `algodImporter.Init` (lines 88-145): the returned genesis or error,
the receiver after the call, and the world after the call. -/
def algodImporter.Init (lib : Lib Raw G Txn) (up : Upstream σ) (algodImp : algodImporter)
    (cfg : Raw) (w : World σ) : (Except Error G × algodImporter) × World σ :=
  match lib.UnmarshalConfig cfg with
  | .error err =>
    ((.error (.errorf "connect failure in unmarshalConfig: %v" [errorText err]), algodImp), w)
  | .ok c =>
    let c1 : Config := if c.Mode = "" then { c with Mode := archivalModeStr } else c
    let imp1 : algodImporter := { algodImp with cfg := c1 }
    if c1.Mode ≠ archivalModeStr ∧ c1.Mode ≠ followerModeStr then
      ((.error (.errorf "algod importer was set to a mode (%s) that wasn\x27t supported"
          [c1.Mode]), imp1), w)
    else
      let imp2 : algodImporter :=
        { imp1 with mode := if c1.Mode = archivalModeStr then archivalMode else followerMode }
      match lib.urlParseScheme c1.NetAddr with
      | .error err => ((.error err, imp2), w)
      | .ok scheme =>
        let c2 : Config :=
          if scheme ≠ "http" ∧ scheme ≠ "https" then
            { c1 with NetAddr := "http://" ++ c1.NetAddr }
          else c1
        let imp3 : algodImporter := { imp2 with cfg := c2 }
        let w1 : World σ := w.record (.MakeClient c2.NetAddr c2.Token) w.st
        match lib.MakeClient c2.NetAddr c2.Token with
        | .error err => ((.error err, imp3), w1)
        | .ok client =>
          let imp4 : algodImporter := { imp3 with aclient := some client }
          match up.GetGenesis w1.st with
          | (.error err, s) => ((.error err, imp4), w1.record .GetGenesis s)
          | (.ok genesisResponse, s) =>
            let w2 : World σ := w1.record .GetGenesis s
            match lib.LenientDecodeGenesis genesisResponse with
            | .error err => ((.error err, imp4), w2)
            | .ok genesis =>
              if lib.genesisIsZero genesis then
                ((.error (.errorf "unable to fetch genesis file from API at %s" [c2.NetAddr]),
                  imp4), w2)
              else
                ((.ok genesis, imp4), w2)

/-- The method `algodImporter.getDelta` (lines 159-171). -/
def algodImporter.getDelta (lib : Lib Raw G Txn) (up : Upstream σ) (rnd : Nat) (w : World σ) :
    Except Error sdk.LedgerStateDelta × World σ :=
  match up.GetRaw ("/v2/deltas/" ++ toString rnd) w.st with
  | (.error err, s) => (.error err, w.record (.GetRaw ("/v2/deltas/" ++ toString rnd)) s)
  | (.ok bytes, s) =>
    (lib.decodeDelta bytes, w.record (.GetRaw ("/v2/deltas/" ++ toString rnd)) s)

/-- The retry loop of `GetBlock` (lines 178-224) with `n` iterations left; `blk`
is the variable declared before the loop, which keeps what an earlier iteration
stored in it. -/
def getBlockLoop (lib : Lib Raw G Txn) (up : Upstream σ) (algodImp : algodImporter)
    (rnd : Nat) : Nat → data.BlockData Txn → World σ →
      (data.BlockData Txn × Option Error) × World σ
  | 0, blk, w => ((blk, some finishedRetriesErr), w)
  | n + 1, blk, w =>
    match up.StatusAfterBlock (u64pred rnd) w.st with
    | (some err, s1) =>
      let w1 := w.record (.StatusAfterBlock (u64pred rnd)) s1
      match up.ctxErr s1 with
      | some _ => ((blk, some (.wrap "GetBlock ctx error: %w" err)), w1)
      | none => getBlockLoop lib up algodImp rnd n blk w1
    | (none, s1) =>
      let w1 := w.record (.StatusAfterBlock (u64pred rnd)) s1
      match up.BlockRaw rnd s1 with
      | (.error _, s2) => getBlockLoop lib up algodImp rnd n blk (w1.record (.BlockRaw rnd) s2)
      | (.ok blockbytes, s2) =>
        let w2 := w1.record (.BlockRaw rnd) s2
        match lib.decodeBlock blockbytes with
        | .error err => ((blk, some err), w2)
        | .ok tmpBlk =>
          let blk1 : data.BlockData Txn :=
            { blk with
              BlockHeader := tmpBlk.Block.BlockHeader
              Payset := tmpBlk.Block.Payset
              Certificate := tmpBlk.Cert }
          if algodImp.mode = followerMode then
            if rnd ≠ 0 then
              match algodImporter.getDelta lib up rnd w2 with
              | (.error _, w3) => getBlockLoop lib up algodImp rnd n blk1 w3
              | (.ok delta, w3) => (({ blk1 with Delta := some delta }, none), w3)
            else ((blk1, none), w2)
          else ((blk1, none), w2)

/-- The method `algodImporter.GetBlock` (lines 173-227). -/
def algodImporter.GetBlock (lib : Lib Raw G Txn) (up : Upstream σ) (algodImp : algodImporter)
    (rnd : Nat) (w : World σ) : (data.BlockData Txn × Option Error) × World σ :=
  getBlockLoop lib up algodImp rnd retries data.BlockData.zero w

end Importer

end algodimporter

/-! ## Postgres encoding: `byteArray` -/

namespace encoding

/-- A Go `string`, as the sequence of its bytes (each below 256); the conversions
`[]byte(s)` and `string(b)` keep the bytes as they are. -/
abbrev GoString := Bytes

/-- The character of the base64 alphabet `A-Z a-z 0-9 + /` for a six-bit value. -/
def encodeSextet (n : Nat) : Nat :=
  if n < 26 then 65 + n
  else if n < 52 then 97 + (n - 26)
  else if n < 62 then 48 + (n - 52)
  else if n = 62 then 43
  else 47

/-- The six-bit value of a character of the base64 alphabet, `none` for any other
character. -/
def decodeSextet (c : Nat) : Option Nat :=
  if 65 ≤ c ∧ c ≤ 90 then some (c - 65)
  else if 97 ≤ c ∧ c ≤ 122 then some (c - 97 + 26)
  else if 48 ≤ c ∧ c ≤ 57 then some (c - 48 + 52)
  else if c = 43 then some 62
  else if c = 47 then some 63
  else none

/-- The padding character `=`. -/
def padChar : Nat := 61

/-- The error of the decoder on input that is not base64. -/
def corruptInputErr : Error := .ext 64

/-- Modelled from the spec: the helper `Base64` of this package, whose code is not
among the sources.  The spec does not describe it; it is taken to be what its
name says, the standard base64 encoding with padding: three bytes give four
characters, a last group of one byte gives two characters and `==`, a last group
of two bytes gives three characters and `=`. -/
def Base64 : Bytes → GoString
  | [] => []
  | [a] => [encodeSextet (a / 4), encodeSextet (a % 4 * 16), padChar, padChar]
  | [a, b] =>
    [encodeSextet (a / 4), encodeSextet (a % 4 * 16 + b / 16), encodeSextet (b % 16 * 4),
      padChar]
  | a :: b :: c :: rest =>
    encodeSextet (a / 4) :: encodeSextet (a % 4 * 16 + b / 16)
      :: encodeSextet (b % 16 * 4 + c / 64) :: encodeSextet (c % 64) :: Base64 rest

/-- The decoder on text without line breaks, four characters at a time; padding is
accepted in the last group only, and the bits left over in a padded group are
dropped. -/
def decodeQuanta : List Nat → Except Error Bytes
  | [] => .ok []
  | c0 :: c1 :: c2 :: c3 :: rest =>
    if c3 = padChar then
      if rest ≠ [] then .error corruptInputErr
      else if c2 = padChar then
        match decodeSextet c0, decodeSextet c1 with
        | some s0, some s1 => .ok [s0 * 4 + s1 / 16]
        | _, _ => .error corruptInputErr
      else
        match decodeSextet c0, decodeSextet c1, decodeSextet c2 with
        | some s0, some s1, some s2 => .ok [s0 * 4 + s1 / 16, s1 % 16 * 16 + s2 / 4]
        | _, _, _ => .error corruptInputErr
    else
      match decodeSextet c0, decodeSextet c1, decodeSextet c2, decodeSextet c3 with
      | some s0, some s1, some s2, some s3 =>
        match decodeQuanta rest with
        | .error err => .error err
        | .ok tail =>
          .ok ((s0 * 4 + s1 / 16) :: (s1 % 16 * 16 + s2 / 4) :: (s2 % 4 * 64 + s3) :: tail)
      | _, _, _, _ => .error corruptInputErr
  | _ => .error corruptInputErr

/-- Modelled from the spec: the helper `decodeBase64` of this package, whose code
is not among the sources.  The spec does not describe it; it is taken to be the
standard base64 decoder with padding, which skips carriage returns and line
feeds and fails on any other input that is not base64. -/
def decodeBase64 (data : GoString) : Except Error Bytes :=
  decodeQuanta (data.filter (fun c => c != 10 && c != 13))

/-- The type `byteArray`: a Go string. -/
structure byteArray where
  data : GoString
deriving DecidableEq, Repr

/-- The method `byteArray.MarshalText` (lines 50-52): the text and the (nil) error. -/
def byteArray.MarshalText (ba : byteArray) : Bytes × Option Error :=
  (Base64 ba.data, none)

/-- The method `byteArray.UnmarshalText` (lines 54-62): the receiver after the call
and the returned error. -/
def byteArray.UnmarshalText (ba : byteArray) (text : Bytes) : byteArray × Option Error :=
  match decodeBase64 text with
  | .error err => (ba, some err)
  | .ok baNew => ({ data := baNew }, none)

/-- The byte array is well formed: every element of its string is a byte. -/
def byteArray.IsBytes (ba : byteArray) : Prop := ∀ b ∈ ba.data, b < 256

end encoding

/-! ## Specification predicates and sample instances -/

namespace filterprocessor

section InitSpec
variable {Raw T E S : Type}

/-- A searcher sub-config fails: the field lookup fails, or the expression
construction fails on the resolved field, or the field-searcher construction
fails on the built expression. -/
def SubConfigFails (env : Env Raw T E S) (searchInner : Bool) (sc : SubConfig) : Prop :=
  (∃ e, env.LookupFieldByTag sc.FilterTag = .error e)
  ∨ (∃ t e, env.LookupFieldByTag sc.FilterTag = .ok t
      ∧ env.MakeExpression sc.ExpressionType sc.Expression t = .error e)
  ∨ (∃ t x e, env.LookupFieldByTag sc.FilterTag = .ok t
      ∧ env.MakeExpression sc.ExpressionType sc.Expression t = .ok x
      ∧ env.MakeFieldSearcher x sc.ExpressionType sc.FilterTag searchInner = .error e)

/-- A group map is rejected: it does not have exactly one key, or its key is not
a valid field operation, or one of its searcher sub-configs fails. -/
def GroupRejected (env : Env Raw T E S) (searchInner : Bool)
    (g : List (String × List SubConfig)) : Prop :=
  g.length ≠ 1
  ∨ ∃ entry ∈ g, env.ValidFieldOperation entry.1 = false
      ∨ ∃ sc ∈ entry.2, SubConfigFails env searchInner sc

/-- The filter `f` is the one built from the group map `g`: the group has the
single key `f.Op`, and `f.Searchers` holds, in order, the searcher made from each
of the group's sub-configs. -/
def FilterBuiltFrom (env : Env Raw T E S) (searchInner : Bool)
    (g : List (String × List SubConfig)) (f : fields.Filter S) : Prop :=
  ∃ key subs, g = [(key, subs)] ∧ f.Op = key
    ∧ f.Searchers.length = subs.length
    ∧ List.Forall₂ (fun sc s => makeSearcher env searchInner sc = .ok s) subs f.Searchers

end InitSpec

/-- Modelled from the spec: the functions of the packages `fields` and
`expression`, whose code is not among the sources.  The operations are ALL and
ANY (`"all"`, `"any"`); the field identifiers known here are `txn.type`,
`txn.snd` and `txn.amt`; the expression types are `exact`, `regex` and
`less-than`, the last one only on the numeric field and only with a numeral.
A field type is a number (0 text, 1 numeric), an expression and a searcher are
the texts they were made from.  The configuration decodes to itself. -/
def sampleEnv : Env Config Nat (String × String) (String × String × String) where
  UnmarshalConfig := fun c => .ok c
  ValidFieldOperation := fun key => key == "any" || key == "all"
  LookupFieldByTag := fun tag =>
    if tag = "txn.type" ∨ tag = "txn.snd" then .ok 0
    else if tag = "txn.amt" then .ok 1
    else .error (.errorf "unknown tag: %s" [tag])
  MakeExpression := fun ty expr t =>
    if ty = "exact" ∨ ty = "regex" then .ok (ty, expr)
    else if ty = "less-than" ∧ t = 1 then
      (if expr.data.all Char.isDigit then .ok (ty, expr) else .error (.ext 2))
    else .error (.errorf "unknown expression type: %s" [ty])
  MakeFieldSearcher := fun exp _ tag _ => .ok (tag, exp.1, exp.2)

/-- A configuration with two well-formed groups. -/
def sampleConfig : Config :=
  { SearchInner := false
    Filters :=
      [[("any", [{ FilterTag := "txn.type", ExpressionType := "exact", Expression := "pay" },
                 { FilterTag := "txn.type", ExpressionType := "exact", Expression := "axfer" }])],
       [("all", [{ FilterTag := "txn.amt", ExpressionType := "less-than", Expression := "100" }])]] }

/-- A configuration whose second group names an unknown field. -/
def unknownFieldConfig : Config :=
  { SearchInner := false
    Filters :=
      [[("any", [{ FilterTag := "txn.type", ExpressionType := "exact", Expression := "pay" }])],
       [("all", [{ FilterTag := "txn.nowhere", ExpressionType := "exact", Expression := "x" }])]] }

/-- A configuration whose only group has one valid key and no searcher. -/
def emptyGroupConfig : Config :=
  { SearchInner := false, Filters := [[("any", [])]] }

/-- A sample `SearchAndFilter` over numbers: a searcher is a number and matches
the transactions it divides; `"all"` keeps a transaction every searcher matches,
`"any"` one that some searcher matches, and any other operation is an error. -/
def sampleKeeps (f : fields.Filter Nat) (t : Nat) : Bool :=
  if f.Op = "all" then f.Searchers.all (fun s => t % s == 0)
  else f.Searchers.any (fun s => t % s == 0)

/-- See `sampleKeeps`. -/
def sampleSaf (f : fields.Filter Nat) (ps : List Nat) : Except Error (List Nat) :=
  if f.Op = "all" ∨ f.Op = "any" then .ok (ps.filter (sampleKeeps f)) else .error (.ext 7)

/-- A sample round: transactions 1 to 12 in round 9. -/
def sampleInput : data.BlockData Nat :=
  { BlockHeader := { Round := 9, rest := 0 }
    Payset := [1, 2, 3, 4, 5, 6, 7, 8, 9, 10, 11, 12]
    Delta := none
    Certificate := none }

end filterprocessor

namespace algodimporter

section GetBlockSpec
variable {σ Raw G Txn : Type}

/-- One attempt of `GetBlock rnd`, started in the upstream state `s`, fails with a
fetch error and leaves the upstream in the state `s1`: either the status wait
fails while the context is not cancelled, or the status wait succeeds and the raw
block fetch fails, or (follower mode, `rnd ≠ 0`) both succeed, the block decodes
and the delta fetch fails, in the request or in decoding its response. -/
def FetchFails (lib : Lib Raw G Txn) (up : Upstream σ) (algodImp : algodImporter) (rnd : Nat)
    (s s1 : σ) : Prop :=
  (∃ e, up.StatusAfterBlock (u64pred rnd) s = (some e, s1) ∧ up.ctxErr s1 = none)
  ∨ (∃ s0 e, up.StatusAfterBlock (u64pred rnd) s = (none, s0)
      ∧ up.BlockRaw rnd s0 = (.error e, s1))
  ∨ (∃ s0 s2 bytes tmp e, algodImp.mode = followerMode ∧ rnd ≠ 0
      ∧ up.StatusAfterBlock (u64pred rnd) s = (none, s0)
      ∧ up.BlockRaw rnd s0 = (.ok bytes, s2)
      ∧ lib.decodeBlock bytes = .ok tmp
      ∧ (up.GetRaw ("/v2/deltas/" ++ toString rnd) s2 = (.error e, s1)
          ∨ ∃ dbytes, up.GetRaw ("/v2/deltas/" ++ toString rnd) s2 = (.ok dbytes, s1)
              ∧ lib.decodeDelta dbytes = .error e))

/-- Each of the next `n` attempts, the first one started in the upstream state
`s`, fails with a fetch error. -/
def AllAttemptsFail (lib : Lib Raw G Txn) (up : Upstream σ) (algodImp : algodImporter)
    (rnd : Nat) : Nat → σ → Prop
  | 0, _ => True
  | n + 1, s => ∃ s1, FetchFails lib up algodImp rnd s s1 ∧ AllAttemptsFail lib up algodImp rnd n s1

end GetBlockSpec

/-- A sample library for the examples: the configuration decodes to itself, the
scheme of an address is read off its prefix, every client can be made, a genesis
is the length of the response, the bytes of a block response are the header
round followed by the transactions, and every delta decodes. -/
def sampleLib : Lib Config Nat Nat where
  UnmarshalConfig := fun c => .ok c
  urlParseScheme := fun addr =>
    if "https://".data.isPrefixOf addr.data then .ok "https"
    else if "http://".data.isPrefixOf addr.data then .ok "http"
    else .ok ""
  MakeClient := fun address token => .ok { address := address, token := token }
  LenientDecodeGenesis := fun response => .ok response.length
  genesisIsZero := fun g => g == 0
  decodeBlock := fun bytes =>
    match bytes with
    | [] => .error (.ext 4)
    | round :: payset =>
      .ok { Block := { BlockHeader := { Round := round, rest := 0 }, Payset := payset },
            Cert := none }
  decodeDelta := fun bytes => .ok { raw := bytes }

/-- An upstream that answers every request, like the responders of
`mock_algod_test.go`: the block served for a round carries that round.  The state
counts the requests answered. -/
def echoUpstream : Upstream Nat where
  GetGenesis := fun s => (.ok "genesis", s + 1)
  StatusAfterBlock := fun _ s => (none, s + 1)
  BlockRaw := fun rnd s => (.ok [rnd, 1, 2], s + 1)
  GetRaw := fun _ s => (.ok [], s + 1)
  SetSyncRound := fun _ s => (none, s + 1)
  ctxErr := fun _ => none

/-- An upstream that serves the block of round 7 whatever round is asked for. -/
def staleUpstream : Upstream Nat :=
  { echoUpstream with BlockRaw := fun _ s => (.ok [7, 1, 2], s + 1) }

/-- An upstream whose status wait always fails, the context never being
cancelled. -/
def failingUpstream : Upstream Nat :=
  { echoUpstream with StatusAfterBlock := fun _ s => (some (.ext 1), s + 1) }

/-- An upstream on which the context is cancelled during a raw block fetch.  The
first `k` status waits fail with a transient error; the next one succeeds; the
raw block fetch that follows fails, and the context is cancelled from then on
(state `k + 2`), so that every later request fails too. -/
def cancelDuringBlockFetch (k : Nat) : Upstream Nat where
  GetGenesis := fun s => (.error (.ext 3), s + 1)
  StatusAfterBlock := fun _ s =>
    if s < k then (some (.ext 1), s + 1)
    else if s = k then (none, s + 1)
    else (some (.ext 3), s + 1)
  BlockRaw := fun _ s => (.error (.ext 3), s + 1)
  GetRaw := fun _ s => (.error (.ext 3), s + 1)
  SetSyncRound := fun _ s => (some (.ext 3), s + 1)
  ctxErr := fun s => if k + 2 ≤ s then some (.ext 3) else none

/-- The importer in follower mode. -/
def followerImporter : algodImporter := { New with mode := followerMode }

/-- The world before any request. -/
def World.start : World Nat := { st := 0, calls := [] }

end algodimporter

/-! ## Theorems: `FilterProcessor.Process` -/

namespace filterprocessor

section ProcessTheorems
variable {S Txn : Type}

/-- When every group keeps exactly the transactions satisfying its predicate, the
loop returns the payset filtered by the conjunction of the predicates. -/
theorem processLoop_filter (saf : fields.Filter S → List Txn → Except Error (List Txn))
    (keeps : fields.Filter S → Txn → Bool) (ps0 : List Txn) :
    ∀ (groups : List (fields.Filter S)) (ps : List Txn),
      (∀ f ∈ groups, ∀ qs : List Txn, qs.Sublist ps0 →
        saf f qs = .ok (qs.filter (keeps f))) →
      ps.Sublist ps0 →
      processLoop saf groups ps = .ok (ps.filter (fun t => groups.all (fun f => keeps f t)))
  | [], ps, _, _ => by simp [processLoop]
  | f :: rest, ps, h, hps => by
    have hf : saf f ps = .ok (ps.filter (keeps f)) := h f (List.mem_cons_self _ _) ps hps
    have hrest := processLoop_filter saf keeps ps0 rest (ps.filter (keeps f))
      (fun g hg qs hqs => h g (List.mem_cons_of_mem _ hg) qs hqs)
      ((List.filter_sublist ps).trans hps)
    simp only [processLoop, hf, hrest, List.filter_filter, List.all_cons]
    congr 2
    funext t
    exact Bool.and_comm _ _

/-- Filtering by the conjunction is filtering by each predicate in turn. -/
theorem filter_all_eq_foldl (keeps : fields.Filter S → Txn → Bool) :
    ∀ (groups : List (fields.Filter S)) (ps : List Txn),
      ps.filter (fun t => groups.all (fun f => keeps f t)) =
        groups.foldl (fun qs f => qs.filter (keeps f)) ps
  | [], ps => by simp
  | f :: rest, ps => by
    rw [List.foldl_cons, ← filter_all_eq_foldl keeps rest (ps.filter (keeps f)),
      List.filter_filter]
    congr 1
    funext t
    simp [Bool.and_comm]

/-- The loop returns a sub-list when every group does. -/
theorem processLoop_sublist (saf : fields.Filter S → List Txn → Except Error (List Txn)) :
    ∀ (groups : List (fields.Filter S)) (ps out : List Txn),
      (∀ f ∈ groups, ∀ qs qs1 : List Txn, saf f qs = .ok qs1 → qs1.Sublist qs) →
      processLoop saf groups ps = .ok out → out.Sublist ps
  | [], ps, out, _, h => by
    simp only [processLoop, Except.ok.injEq] at h
    subst h
    exact List.Sublist.refl _
  | f :: rest, ps, out, hsub, h => by
    simp only [processLoop] at h
    cases hf : saf f ps with
    | error err => simp [hf] at h
    | ok ps1 =>
      simp only [hf] at h
      exact (processLoop_sublist saf rest ps1 out
        (fun g hg => hsub g (List.mem_cons_of_mem _ hg)) h).trans
        (hsub f (List.mem_cons_self _ _) ps ps1 hf)

/-- C1: `Process` combines the groups with logical AND.  If, on the sub-lists of the
input payset, every configured group's `SearchAndFilter` succeeds and keeps
exactly the transactions satisfying that group's predicate `keeps f`, then
`Process` returns a nil error and the input with its payset filtered by the
conjunction of all the groups' predicates; a transaction is in the output iff it
is in the input and every group keeps it; and that payset is the result of
filtering by each group in configured order. -/
theorem process_conjunction_of_groups
    (saf : fields.Filter S → List Txn → Except Error (List Txn))
    (keeps : fields.Filter S → Txn → Bool)
    (a : FilterProcessor S) (input : data.BlockData Txn)
    (h : ∀ f ∈ a.FieldFilters, ∀ qs : List Txn, qs.Sublist input.Payset →
      saf f qs = .ok (qs.filter (keeps f))) :
    a.Process saf input =
        ({ input with
            Payset := input.Payset.filter (fun t => a.FieldFilters.all (fun f => keeps f t)) },
          none)
      ∧ (∀ t, t ∈ (a.Process saf input).1.Payset ↔
          t ∈ input.Payset ∧ ∀ f ∈ a.FieldFilters, keeps f t = true)
      ∧ (a.Process saf input).1.Payset =
          a.FieldFilters.foldl (fun qs f => qs.filter (keeps f)) input.Payset := by
  have hloop := processLoop_filter saf keeps input.Payset a.FieldFilters input.Payset h
    (List.Sublist.refl _)
  have hP : a.Process saf input =
      ({ input with
          Payset := input.Payset.filter (fun t => a.FieldFilters.all (fun f => keeps f t)) },
        none) := by
    simp only [FilterProcessor.Process, hloop]
  refine ⟨hP, ?_, ?_⟩
  · intro t
    rw [hP]
    simp [List.mem_filter, List.all_eq_true]
  · rw [hP]
    exact filter_all_eq_foldl keeps a.FieldFilters input.Payset

/-- The loop is the monadic left fold of the groups' `SearchAndFilter` over the
payset. -/
theorem processLoop_eq_foldlM (saf : fields.Filter S → List Txn → Except Error (List Txn)) :
    ∀ (groups : List (fields.Filter S)) (ps : List Txn),
      processLoop saf groups ps = groups.foldlM (fun qs f => saf f qs) ps
  | [], ps => by simp [processLoop, pure, Except.pure]
  | f :: rest, ps => by
    rw [List.foldlM_cons]
    cases hf : saf f ps with
    | error err => simp [processLoop, hf, bind, Except.bind]
    | ok ps1 =>
      simp only [processLoop, hf, bind, Except.bind]
      exact processLoop_eq_foldlM saf rest ps1

/-- C2: `Process` returns exactly the retained transactions, in their original
relative order.  Let every configured group's `SearchAndFilter` return a sub-list
(order-preserving selection) of its argument whenever it succeeds.  If the groups,
applied one after another to the input payset, retain `retained`, then `Process`
returns a nil error and the input with `retained` as its payset, so exactly
`retained.length` transactions, and `retained` is a sub-list of the input payset,
hence no longer than it.  Conversely, whenever `Process` returns `out` with a nil
error, `out.Payset` is what the groups retain, it is a sub-list of the input
payset, no longer than it, and the rest of the block data is the input's. -/
theorem process_payset_sublist
    (saf : fields.Filter S → List Txn → Except Error (List Txn))
    (a : FilterProcessor S) (input : data.BlockData Txn)
    (hsub : ∀ f ∈ a.FieldFilters, ∀ qs qs1 : List Txn, saf f qs = .ok qs1 → qs1.Sublist qs) :
    (∀ retained : List Txn,
        a.FieldFilters.foldlM (fun qs f => saf f qs) input.Payset = .ok retained →
        a.Process saf input = ({ input with Payset := retained }, none)
          ∧ (a.Process saf input).1.Payset.length = retained.length
          ∧ retained.Sublist input.Payset
          ∧ retained.length ≤ input.Payset.length)
      ∧ (∀ out : data.BlockData Txn, a.Process saf input = (out, none) →
          a.FieldFilters.foldlM (fun qs f => saf f qs) input.Payset = .ok out.Payset
            ∧ out.Payset.Sublist input.Payset
            ∧ out.Payset.length ≤ input.Payset.length
            ∧ out = { input with Payset := out.Payset }) := by
  constructor
  · intro retained hret
    rw [← processLoop_eq_foldlM] at hret
    have hs := processLoop_sublist saf a.FieldFilters input.Payset retained hsub hret
    have hP : a.Process saf input = ({ input with Payset := retained }, none) := by
      simp only [FilterProcessor.Process, hret]
    exact ⟨hP, by rw [hP], hs, hs.length_le⟩
  · intro out hok
    unfold FilterProcessor.Process at hok
    cases hl : processLoop saf a.FieldFilters input.Payset with
    | error err => simp [hl] at hok
    | ok payset =>
      simp only [hl, Prod.mk.injEq, and_true] at hok
      subst hok
      have hs := processLoop_sublist saf a.FieldFilters input.Payset payset hsub hl
      exact ⟨by rw [← processLoop_eq_foldlM]; exact hl, hs, hs.length_le, rfl⟩

/-- Every sample group keeps the transactions satisfying `sampleKeeps`. -/
theorem sampleSaf_keeps (f : fields.Filter Nat) (h : f.Op = "all" ∨ f.Op = "any")
    (qs : List Nat) : sampleSaf f qs = .ok (qs.filter (sampleKeeps f)) := by
  simp [sampleSaf, h]

/-- The sample `SearchAndFilter` returns a sub-list. -/
theorem sampleSaf_sublist (f : fields.Filter Nat) (qs qs1 : List Nat)
    (h : sampleSaf f qs = .ok qs1) : qs1.Sublist qs := by
  unfold sampleSaf at h
  split at h
  · simp only [Except.ok.injEq] at h
    subst h
    exact List.filter_sublist qs
  · simp at h

/-- C1 at a sample round: the even numbers of 1..12 divisible by 3 or 5. -/
theorem process_conjunction_of_groups_witness :
    (FilterProcessor.Process sampleSaf
      { FieldFilters := [{ Op := "all", Searchers := [2] }, { Op := "any", Searchers := [3, 5] }]
        cfg := { SearchInner := false, Filters := [] } } sampleInput).1.Payset
      = [6, 10, 12] := by
  have h := (process_conjunction_of_groups sampleSaf sampleKeeps
    { FieldFilters := [{ Op := "all", Searchers := [2] }, { Op := "any", Searchers := [3, 5] }]
      cfg := { SearchInner := false, Filters := [] } } sampleInput
    (by
      intro f hf qs _
      apply sampleSaf_keeps
      simp only [List.mem_cons, List.mem_singleton, List.not_mem_nil, or_false] at hf
      rcases hf with rfl | rfl
      · exact Or.inl rfl
      · exact Or.inr rfl)).1
  rw [h]
  decide

/-- C2 at a sample round: the two groups retain `[6, 10, 12]` of the twelve
transactions, and `Process` returns exactly these three, in order. -/
theorem process_payset_sublist_witness :
    FilterProcessor.Process sampleSaf
        { FieldFilters :=
            [{ Op := "all", Searchers := [2] }, { Op := "any", Searchers := [3, 5] }]
          cfg := { SearchInner := false, Filters := [] } } sampleInput
        = ({ sampleInput with Payset := [6, 10, 12] }, none)
      ∧ (FilterProcessor.Process sampleSaf
          { FieldFilters :=
              [{ Op := "all", Searchers := [2] }, { Op := "any", Searchers := [3, 5] }]
            cfg := { SearchInner := false, Filters := [] } } sampleInput).1.Payset.length = 3
      ∧ ([6, 10, 12] : List Nat).Sublist sampleInput.Payset
      ∧ ([6, 10, 12] : List Nat).length ≤ sampleInput.Payset.length :=
  (process_payset_sublist sampleSaf
    { FieldFilters := [{ Op := "all", Searchers := [2] }, { Op := "any", Searchers := [3, 5] }]
      cfg := { SearchInner := false, Filters := [] } } sampleInput
    (fun f _ qs qs1 hq => sampleSaf_sublist f qs qs1 hq)).1 [6, 10, 12] rfl

end ProcessTheorems

/-! ## Theorems: `FilterProcessor.Init` -/

section InitTheorems
variable {Raw T E S : Type}

/-- The loop body fails exactly on a failing sub-config. -/
theorem makeSearcher_error_iff (env : Env Raw T E S) (si : Bool) (sc : SubConfig) :
    (∃ e, makeSearcher env si sc = .error e) ↔ SubConfigFails env si sc := by
  unfold makeSearcher SubConfigFails
  cases h1 : env.LookupFieldByTag sc.FilterTag with
  | error e1 => simp
  | ok t =>
    cases h2 : env.MakeExpression sc.ExpressionType sc.Expression t with
    | error e2 => simp [h2]
    | ok x =>
      cases h3 : env.MakeFieldSearcher x sc.ExpressionType sc.FilterTag si with
      | error e3 => simp [h2, h3]
      | ok s => simp [h2, h3]

/-- The searcher loop fails exactly when some sub-config fails; when it succeeds
it appends, in order, the searcher of each sub-config. -/
theorem searcherLoop_spec (env : Env Raw T E S) (si : Bool) :
    ∀ (subs : List SubConfig) (acc : List S),
      (∃ e, searcherLoop env si subs acc = .error e ∧ ∃ sc ∈ subs, SubConfigFails env si sc)
      ∨ (∃ new, searcherLoop env si subs acc = .ok (acc ++ new)
          ∧ (∀ sc ∈ subs, ¬ SubConfigFails env si sc)
          ∧ List.Forall₂ (fun sc s => makeSearcher env si sc = .ok s) subs new)
  | [], acc => Or.inr ⟨[], by simp [searcherLoop]⟩
  | sc :: rest, acc => by
    cases hm : makeSearcher env si sc with
    | error e =>
      exact Or.inl ⟨e, by simp [searcherLoop, hm],
        sc, List.mem_cons_self _ _, (makeSearcher_error_iff env si sc).1 ⟨e, hm⟩⟩
    | ok s =>
      have hnot : ¬ SubConfigFails env si sc := by
        intro hf
        obtain ⟨e, he⟩ := (makeSearcher_error_iff env si sc).2 hf
        rw [hm] at he
        cases he
      rcases searcherLoop_spec env si rest (acc ++ [s]) with ⟨e, he, sc1, hmem, hf⟩ | ⟨new, hn, hall, hf2⟩
      · exact Or.inl ⟨e, by simp [searcherLoop, hm, he], sc1, List.mem_cons_of_mem _ hmem, hf⟩
      · refine Or.inr ⟨s :: new, by simp [searcherLoop, hm, hn], ?_, List.Forall₂.cons hm hf2⟩
        intro sc1 hmem
        rcases List.mem_cons.1 hmem with rfl | h
        · exact hnot
        · exact hall sc1 h

/-- The entry loop fails exactly when some entry has an invalid key or a failing
sub-config; when it succeeds it appends one filter per entry. -/
theorem entryLoop_spec (env : Env Raw T E S) (si : Bool) :
    ∀ (entries : List (String × List SubConfig)) (ffs : List (fields.Filter S)),
      (∃ ffs1 e, entryLoop env si entries ffs = (ffs1, some e)
          ∧ ∃ entry ∈ entries, env.ValidFieldOperation entry.1 = false
              ∨ ∃ sc ∈ entry.2, SubConfigFails env si sc)
      ∨ (∃ new, entryLoop env si entries ffs = (ffs ++ new, none)
          ∧ (∀ entry ∈ entries, env.ValidFieldOperation entry.1 = true
              ∧ ∀ sc ∈ entry.2, ¬ SubConfigFails env si sc)
          ∧ List.Forall₂ (fun (entry : String × List SubConfig) (f : fields.Filter S) =>
              f.Op = entry.1
              ∧ List.Forall₂ (fun sc s => makeSearcher env si sc = .ok s) entry.2 f.Searchers)
              entries new)
  | [], ffs => Or.inr ⟨[], by simp [entryLoop]⟩
  | (key, subs) :: rest, ffs => by
    cases hv : env.ValidFieldOperation key with
    | false =>
      exact Or.inl ⟨ffs,
        .errorf "filter processor Init(): filter key was not a valid value: %s" [key],
        by simp [entryLoop, hv], (key, subs), List.mem_cons_self _ _, Or.inl hv⟩
    | true =>
      rcases searcherLoop_spec env si subs [] with ⟨e, he, sc, hmem, hf⟩ | ⟨sl, hsl, hall, hf2⟩
      · exact Or.inl ⟨ffs, e, by simp [entryLoop, hv, he], (key, subs), List.mem_cons_self _ _,
          Or.inr ⟨sc, hmem, hf⟩⟩
      · rw [List.nil_append] at hsl
        rcases entryLoop_spec env si rest (ffs ++ [{ Op := key, Searchers := sl }]) with
          ⟨ffs1, e, he, entry, hmem, hbad⟩ | ⟨new, hn, hgood, hf3⟩
        · exact Or.inl ⟨ffs1, e, by simp [entryLoop, hv, hsl, he], entry,
            List.mem_cons_of_mem _ hmem, hbad⟩
        · refine Or.inr ⟨{ Op := key, Searchers := sl } :: new,
            by simp [entryLoop, hv, hsl, hn], ?_, List.Forall₂.cons ⟨rfl, hf2⟩ hf3⟩
          intro entry hmem
          rcases List.mem_cons.1 hmem with rfl | h
          · exact ⟨hv, hall⟩
          · exact hgood entry h

/-- The group loop fails exactly when some group is rejected; when it succeeds it
appends, in order, the filter built from each group. -/
theorem groupLoop_spec (env : Env Raw T E S) (si : Bool) :
    ∀ (groups : List (List (String × List SubConfig))) (ffs : List (fields.Filter S)),
      (∃ ffs1 e, groupLoop env si groups ffs = (ffs1, some e)
          ∧ ∃ g ∈ groups, GroupRejected env si g)
      ∨ (∃ new, groupLoop env si groups ffs = (ffs ++ new, none)
          ∧ (∀ g ∈ groups, ¬ GroupRejected env si g)
          ∧ List.Forall₂ (FilterBuiltFrom env si) groups new)
  | [], ffs => Or.inr ⟨[], by simp [groupLoop]⟩
  | g :: rest, ffs => by
    by_cases hlen : g.length = 1
    · rcases entryLoop_spec env si g ffs with ⟨ffs1, e, he, entry, hmem, hbad⟩ | ⟨new, hn, hgood, hf⟩
      · exact Or.inl ⟨ffs1, e, by simp [groupLoop, hlen, he], g, List.mem_cons_self _ _,
          Or.inr ⟨entry, hmem, hbad⟩⟩
      · obtain ⟨entry, rfl⟩ := List.length_eq_one.1 hlen
        obtain ⟨f, rfl⟩ : ∃ f, new = [f] := by
          cases hf with
          | cons _ htl => cases htl; exact ⟨_, rfl⟩
        have hff : f.Op = entry.1
            ∧ List.Forall₂ (fun sc s => makeSearcher env si sc = .ok s) entry.2 f.Searchers := by
          cases hf with
          | cons hhd _ => exact hhd
        have hbuilt : FilterBuiltFrom env si [entry] f :=
          ⟨entry.1, entry.2, rfl, hff.1, hff.2.length_eq.symm, hff.2⟩
        have hnotrej : ¬ GroupRejected env si [entry] := by
          rintro (hl | ⟨en, hmem, hbad⟩)
          · exact hl rfl
          · have hg := hgood en hmem
            rcases hbad with hv | ⟨sc, hsc, hfl⟩
            · rw [hg.1] at hv
              cases hv
            · exact hg.2 sc hsc hfl
        rcases groupLoop_spec env si rest (ffs ++ [f]) with
          ⟨ffs1, e, he, g1, hmem, hrej⟩ | ⟨new1, hn1, hgood1, hf1⟩
        · exact Or.inl ⟨ffs1, e, by simp [groupLoop, hn, he], g1,
            List.mem_cons_of_mem _ hmem, hrej⟩
        · refine Or.inr ⟨f :: new1, by simp [groupLoop, hn, hn1], ?_,
            List.Forall₂.cons hbuilt hf1⟩
          intro g1 hmem
          rcases List.mem_cons.1 hmem with rfl | h
          · exact hnotrej
          · exact hgood1 g1 h
    · exact Or.inl ⟨ffs,
        .errorf "filter processor Init(): illegal filter tag formation.  tag length was: %d"
          [toString g.length],
        by simp [groupLoop, hlen], g, List.mem_cons_self _ _, Or.inl hlen⟩

/-- C3: for a configuration that deserialises (to `c`), `Init` returns an error if
and only if some group map does not have exactly one key, or its key is not a
valid field operation, or one of its searcher sub-configs fails at the field
lookup, the expression construction or the field-searcher construction; in every
other case it returns nil. -/
theorem init_error_iff_group_rejected (env : Env Raw T E S) (a : FilterProcessor S)
    (cfg : Raw) (c : Config) (h : env.UnmarshalConfig cfg = .ok c) :
    ((a.Init env cfg).2 ≠ none ↔ ∃ g ∈ c.Filters, GroupRejected env c.SearchInner g)
      ∧ ((a.Init env cfg).2 = none ↔ ∀ g ∈ c.Filters, ¬ GroupRejected env c.SearchInner g) := by
  simp only [FilterProcessor.Init, h]
  rcases groupLoop_spec env c.SearchInner c.Filters a.FieldFilters with
    ⟨ffs1, e, he, hrej⟩ | ⟨new, hn, hgood, _⟩
  · rw [he]
    refine ⟨⟨fun _ => hrej, fun _ => by simp⟩, ⟨fun hnone => by simp at hnone, ?_⟩⟩
    intro hall
    obtain ⟨g, hg, hr⟩ := hrej
    exact absurd hr (hall g hg)
  · rw [hn]
    refine ⟨⟨fun hne => absurd rfl hne, ?_⟩, ⟨fun _ => hgood, fun _ => rfl⟩⟩
    rintro ⟨g, hg, hr⟩
    exact absurd hr (hgood g hg)

/-- C9 (as amended): when `Init`, called on a fresh processor with a configuration
that deserialises to `c`, returns nil, `FieldFilters` has one filter per
configured group, in configured order; each filter's `Op` is its group's single
key and its `Searchers` holds one searcher per configured sub-config, in
configured order (so it is non-empty exactly when the group configures at least
one sub-config). -/
theorem init_one_filter_per_group (env : Env Raw T E S) (cfg : Raw) (c : Config)
    (h : env.UnmarshalConfig cfg = .ok c)
    (hok : (FilterProcessor.fresh.Init env cfg).2 = none) :
    (FilterProcessor.fresh.Init env cfg).1.FieldFilters.length = c.Filters.length
      ∧ List.Forall₂ (FilterBuiltFrom env c.SearchInner) c.Filters
          (FilterProcessor.fresh.Init env cfg).1.FieldFilters
      ∧ List.Forall₂ (fun (g : List (String × List SubConfig)) (f : fields.Filter S) =>
            ∀ key subs, g = [(key, subs)] → (f.Searchers ≠ [] ↔ subs ≠ []))
          c.Filters (FilterProcessor.fresh.Init env cfg).1.FieldFilters := by
  simp only [FilterProcessor.Init, h] at hok ⊢
  rcases groupLoop_spec env c.SearchInner c.Filters (FilterProcessor.fresh (S := S)).FieldFilters
    with ⟨ffs1, e, he, _⟩ | ⟨new, hn, _, hf⟩
  · rw [he] at hok
    cases hok
  · rw [hn]
    simp only [FilterProcessor.fresh, List.nil_append]
    refine ⟨hf.length_eq.symm, hf, ?_⟩
    refine hf.imp ?_
    rintro g f ⟨key, subs, rfl, _, hlen, _⟩ key1 subs1 heq
    simp only [List.cons.injEq, Prod.mk.injEq, and_true] at heq
    obtain ⟨_, rfl⟩ := heq
    rw [← List.length_pos, ← List.length_pos, hlen]

/-- C3 at a sample configuration: the second group names an unknown field and
`Init` returns an error. -/
theorem init_error_iff_group_rejected_witness :
    (FilterProcessor.fresh.Init sampleEnv unknownFieldConfig).2 ≠ none
      ∧ ∃ g ∈ unknownFieldConfig.Filters,
          GroupRejected sampleEnv unknownFieldConfig.SearchInner g :=
  have h := init_error_iff_group_rejected sampleEnv FilterProcessor.fresh unknownFieldConfig
    unknownFieldConfig rfl
  have hne : (FilterProcessor.fresh.Init sampleEnv unknownFieldConfig).2 ≠ none := by decide
  ⟨hne, h.1.1 hne⟩

/-- C9, as stated, fails: a group with a valid key and an empty searcher list is
accepted by `Init`, which builds a filter without searchers. -/
theorem init_accepts_group_without_searchers :
    (FilterProcessor.fresh.Init sampleEnv emptyGroupConfig).2 = none
      ∧ (FilterProcessor.fresh.Init sampleEnv emptyGroupConfig).1.FieldFilters
          = [{ Op := "any", Searchers := [] }] := by
  decide

/-- C9 (as amended) at a sample configuration: two groups, two filters, with two
searchers and one searcher. -/
theorem init_one_filter_per_group_witness :
    (FilterProcessor.fresh.Init sampleEnv sampleConfig).2 = none
      ∧ (FilterProcessor.fresh.Init sampleEnv sampleConfig).1.FieldFilters.length = 2
      ∧ List.Forall₂ (FilterBuiltFrom sampleEnv sampleConfig.SearchInner) sampleConfig.Filters
          (FilterProcessor.fresh.Init sampleEnv sampleConfig).1.FieldFilters :=
  have hok : (FilterProcessor.fresh.Init sampleEnv sampleConfig).2 = none := by decide
  have h := init_one_filter_per_group sampleEnv sampleConfig sampleConfig rfl hok
  ⟨hok, h.1, h.2.1⟩

end InitTheorems

end filterprocessor

/-! ## Theorems: algod importer -/

namespace algodimporter

section ImporterTheorems
variable {σ Raw G Txn : Type}

/-- When each of the `n` remaining attempts fails with a fetch error, the loop
issues exactly `n` more status waits and ends with the terminal error. -/
theorem getBlockLoop_exhausts (lib : Lib Raw G Txn) (up : Upstream σ) (algodImp : algodImporter)
    (rnd : Nat) :
    ∀ (n : Nat) (blk : data.BlockData Txn) (w : World σ),
      AllAttemptsFail lib up algodImp rnd n w.st →
      ∃ blk1 s new,
        getBlockLoop lib up algodImp rnd n blk w
            = ((blk1, some finishedRetriesErr), { st := s, calls := w.calls ++ new })
          ∧ new.count (.StatusAfterBlock (u64pred rnd)) = n
  | 0, blk, w, _ => ⟨blk, w.st, [], by simp [getBlockLoop]⟩
  | n + 1, blk, w, h => by
    obtain ⟨s1, hfail, hrest⟩ := h
    rcases hfail with ⟨e, hs, hctx⟩ | ⟨s0, e, hs, hb⟩ |
      ⟨s0, s2, bytes, tmp, e, hmode, hrnd, hs, hb, hdec, hd⟩
    · obtain ⟨blk1, s, new, hrun, hcount⟩ := getBlockLoop_exhausts lib up algodImp rnd n blk
        (w.record (.StatusAfterBlock (u64pred rnd)) s1) hrest
      simp only [World.record, List.append_assoc, List.singleton_append] at hrun
      refine ⟨blk1, s, .StatusAfterBlock (u64pred rnd) :: new, ?_, ?_⟩
      · simp only [getBlockLoop, hs, hctx, hrun, World.record, List.append_assoc,
          List.singleton_append]
      · simp [hcount]
    · obtain ⟨blk1, s, new, hrun, hcount⟩ := getBlockLoop_exhausts lib up algodImp rnd n blk
        ((w.record (.StatusAfterBlock (u64pred rnd)) s0).record (.BlockRaw rnd) s1) hrest
      simp only [World.record, List.append_assoc, List.singleton_append, List.cons_append,
        List.nil_append] at hrun
      refine ⟨blk1, s, .StatusAfterBlock (u64pred rnd) :: .BlockRaw rnd :: new, ?_, ?_⟩
      · simp only [getBlockLoop, hs, hb, hrun, World.record, List.append_assoc,
          List.singleton_append, List.cons_append, List.nil_append]
      · simp [hcount]
    · obtain ⟨blk1, s, new, hrun, hcount⟩ := getBlockLoop_exhausts lib up algodImp rnd n
        { blk with
          BlockHeader := tmp.Block.BlockHeader
          Payset := tmp.Block.Payset
          Certificate := tmp.Cert }
        (((w.record (.StatusAfterBlock (u64pred rnd)) s0).record (.BlockRaw rnd) s2).record
          (.GetRaw ("/v2/deltas/" ++ toString rnd)) s1) hrest
      simp only [World.record, List.append_assoc, List.singleton_append, List.cons_append,
        List.nil_append] at hrun
      refine ⟨blk1, s, .StatusAfterBlock (u64pred rnd) :: .BlockRaw rnd ::
        .GetRaw ("/v2/deltas/" ++ toString rnd) :: new, ?_, ?_⟩
      · rcases hd with hd | ⟨dbytes, hd, hdd⟩
        · simp only [getBlockLoop, hs, hb, hdec, hmode, hrnd, algodImporter.getDelta, hd, hrun,
            World.record, List.append_assoc, List.singleton_append, List.cons_append,
            List.nil_append, if_true, ne_eq, not_false_eq_true]
        · simp only [getBlockLoop, hs, hb, hdec, hmode, hrnd, algodImporter.getDelta, hd, hdd,
            hrun, World.record, List.append_assoc, List.singleton_append, List.cons_append,
            List.nil_append, if_true, ne_eq, not_false_eq_true]
      · simp [hcount]

/-- C4: `GetBlock` retries exactly the configured budget.  If each of the `retries`
attempts fails with a fetch error (status wait with the context not cancelled,
raw block fetch, or delta fetch in follower mode), `GetBlock` returns the
'finished retries without fetching a block' error, and the requests it issued
contain exactly `retries` = 5 status waits, one per loop iteration. -/
theorem getBlock_retries_exactly_budget (lib : Lib Raw G Txn) (up : Upstream σ)
    (algodImp : algodImporter) (rnd : Nat) (w : World σ)
    (h : AllAttemptsFail lib up algodImp rnd retries w.st) :
    ∃ blk s new,
      algodImp.GetBlock lib up rnd w
          = ((blk, some finishedRetriesErr), { st := s, calls := w.calls ++ new })
        ∧ new.count (.StatusAfterBlock (u64pred rnd)) = retries
        ∧ retries = 5 := by
  obtain ⟨blk, s, new, hrun, hcount⟩ :=
    getBlockLoop_exhausts lib up algodImp rnd retries data.BlockData.zero w h
  exact ⟨blk, s, new, hrun, hcount, rfl⟩

/-- On the always-failing upstream every attempt fails with a fetch error. -/
theorem failingUpstream_allAttemptsFail (algodImp : algodImporter) (rnd : Nat) :
    ∀ (n s : Nat), AllAttemptsFail sampleLib failingUpstream algodImp rnd n s
  | 0, _ => trivial
  | n + 1, s =>
    ⟨s + 1, Or.inl ⟨.ext 1, rfl, rfl⟩, failingUpstream_allAttemptsFail algodImp rnd n (s + 1)⟩

/-- C4 on the always-failing upstream: five status waits, then the terminal error. -/
theorem getBlock_retries_exactly_budget_witness :
    ∃ blk s new,
      New.GetBlock sampleLib failingUpstream 7 World.start
          = ((blk, some finishedRetriesErr), { st := s, calls := World.start.calls ++ new })
        ∧ new.count (.StatusAfterBlock (u64pred 7)) = retries
        ∧ retries = 5 :=
  getBlock_retries_exactly_budget sampleLib failingUpstream New 7 World.start
    (failingUpstream_allAttemptsFail New 7 retries 0)

/-- C5: evaluation at the failing inputs.  The context is cancelled during a raw
block fetch, which fails.  In the fifth attempt `GetBlock` returns the 'finished
retries' error, not a context error; in the first attempt it starts a second
loop iteration and issues a further status wait before it returns the context
error. -/
theorem getBlock_cancelled_during_block_fetch :
    (New.GetBlock sampleLib (cancelDuringBlockFetch 4) 7 World.start).1.2
        = some finishedRetriesErr
      ∧ (New.GetBlock sampleLib (cancelDuringBlockFetch 4) 7 World.start).2.calls
        = [.StatusAfterBlock 6, .StatusAfterBlock 6, .StatusAfterBlock 6, .StatusAfterBlock 6,
            .StatusAfterBlock 6, .BlockRaw 7]
      ∧ (cancelDuringBlockFetch 4).ctxErr
          (New.GetBlock sampleLib (cancelDuringBlockFetch 4) 7 World.start).2.st = some (.ext 3)
      ∧ (New.GetBlock sampleLib (cancelDuringBlockFetch 0) 7 World.start).1.2
        = some (.wrap "GetBlock ctx error: %w" (.ext 3))
      ∧ (New.GetBlock sampleLib (cancelDuringBlockFetch 0) 7 World.start).2.calls
        = [.StatusAfterBlock 6, .BlockRaw 7, .StatusAfterBlock 6] := by
  decide

/-- The status-wait part of C5: when the status wait of an attempt fails and the
context is cancelled, the loop returns the wrapped context error at once, having
issued that one request only. -/
theorem getBlockLoop_status_failure_cancelled (lib : Lib Raw G Txn) (up : Upstream σ)
    (algodImp : algodImporter) (rnd n : Nat) (blk : data.BlockData Txn) (w : World σ)
    (err cerr : Error) (s1 : σ)
    (hs : up.StatusAfterBlock (u64pred rnd) w.st = (some err, s1))
    (hctx : up.ctxErr s1 = some cerr) :
    getBlockLoop lib up algodImp rnd (n + 1) blk w
      = ((blk, some (.wrap "GetBlock ctx error: %w" err)),
          { st := s1, calls := w.calls ++ [.StatusAfterBlock (u64pred rnd)] }) := by
  simp only [getBlockLoop, hs, hctx, World.record]

/-- C7: `OnComplete` advances the remote checkpoint only in follower mode.  In any
mode other than follower mode (archival mode is one) it returns nil and leaves
the world, with its list of issued requests, unchanged; in follower mode it
issues exactly one set-sync-round request, with the `uint64` sum
`input.Round() + 1`, and returns the error of that request. -/
theorem onComplete_sets_sync_round_in_follower_mode (up : Upstream σ)
    (algodImp : algodImporter) (input : data.BlockData Txn) (w : World σ) :
    archivalMode ≠ followerMode
      ∧ (algodImp.mode ≠ followerMode → algodImp.OnComplete up input w = (none, w))
      ∧ (algodImp.mode = followerMode →
          algodImp.OnComplete up input w
            = ((up.SetSyncRound (u64succ input.Round) w.st).1,
                { st := (up.SetSyncRound (u64succ input.Round) w.st).2
                  calls := w.calls ++ [.SetSyncRound (u64succ input.Round)] }))
      ∧ (input.Round + 1 < 2 ^ 64 → u64succ input.Round = input.Round + 1) := by
  refine ⟨by decide, ?_, ?_, ?_⟩
  · intro h
    simp [algodImporter.OnComplete, h]
  · intro h
    simp [algodImporter.OnComplete, h, World.record]
  · intro h
    exact Nat.mod_eq_of_lt h

/-- C7 at sample importers: no request in archival mode, one set-sync-round
request for round 10 after round 9 in follower mode. -/
theorem onComplete_sets_sync_round_in_follower_mode_witness :
    New.OnComplete echoUpstream filterprocessor.sampleInput World.start = (none, World.start)
      ∧ followerImporter.OnComplete echoUpstream filterprocessor.sampleInput World.start
          = (none, { st := 1, calls := [.SetSyncRound 10] }) :=
  have h := onComplete_sets_sync_round_in_follower_mode echoUpstream New
    filterprocessor.sampleInput World.start
  have h2 := onComplete_sets_sync_round_in_follower_mode echoUpstream followerImporter
    filterprocessor.sampleInput World.start
  ⟨h.2.1 (by decide), h2.2.2.1 rfl⟩

/-- C8: an invalid mode is an `Init`-time error.  For a configuration that
deserialises to `c`: when the mode is none of `""`, `"archival"`, `"follower"`,
`Init` returns the unsupported-mode error, with no client stored and the world
unchanged (no client created, no request issued); the empty mode is replaced by
`"archival"` and selects archival mode; `"archival"` selects archival mode;
`"follower"` selects follower mode. -/
theorem init_mode_selection (lib : Lib Raw G Txn) (up : Upstream σ) (algodImp : algodImporter)
    (cfg : Raw) (c : Config) (w : World σ) (h : lib.UnmarshalConfig cfg = .ok c) :
    (c.Mode ≠ "" ∧ c.Mode ≠ "archival" ∧ c.Mode ≠ "follower" →
        algodImp.Init lib up cfg w
          = ((.error (.errorf "algod importer was set to a mode (%s) that wasn\x27t supported"
                [c.Mode]), { algodImp with cfg := c }), w))
      ∧ (c.Mode = "" →
          (algodImp.Init lib up cfg w).1.2.cfg.Mode = "archival"
            ∧ (algodImp.Init lib up cfg w).1.2.mode = archivalMode)
      ∧ (c.Mode = "archival" → (algodImp.Init lib up cfg w).1.2.mode = archivalMode)
      ∧ (c.Mode = "follower" → (algodImp.Init lib up cfg w).1.2.mode = followerMode) := by
  refine ⟨?_, ?_, ?_, ?_⟩
  · rintro ⟨h1, h2, h3⟩
    simp [algodImporter.Init, h, h1, h2, h3, archivalModeStr, followerModeStr]
  · intro hm
    simp only [algodImporter.Init, h, hm, archivalModeStr, followerModeStr]
    simp only [if_true, ne_eq, not_true_eq_false, false_and, if_false]
    repeat' split
    all_goals simp
  · intro hm
    simp only [algodImporter.Init, h, hm, archivalModeStr, followerModeStr]
    simp only [ne_eq, not_true_eq_false, false_and, if_false]
    repeat' split
    all_goals simp_all
  · intro hm
    simp only [algodImporter.Init, h, hm, archivalModeStr, followerModeStr]
    simp only [ne_eq, not_true_eq_false, and_false, if_false]
    repeat' split
    all_goals simp_all

/-- C8 at sample configurations: the mode `turbo` is refused before any request;
the empty mode selects archival mode. -/
theorem init_mode_selection_witness :
    New.Init sampleLib echoUpstream
        { Mode := "turbo", NetAddr := "localhost:8080", Token := "" } World.start
      = ((.error (.errorf "algod importer was set to a mode (%s) that wasn\x27t supported"
            ["turbo"]),
          { New with cfg := { Mode := "turbo", NetAddr := "localhost:8080", Token := "" } }),
         World.start)
    ∧ (New.Init sampleLib echoUpstream
        { Mode := "", NetAddr := "localhost:8080", Token := "" } World.start).1.2.mode
      = archivalMode :=
  ⟨(init_mode_selection sampleLib echoUpstream New
      { Mode := "turbo", NetAddr := "localhost:8080", Token := "" }
      { Mode := "turbo", NetAddr := "localhost:8080", Token := "" } World.start rfl).1
      (by decide),
   ((init_mode_selection sampleLib echoUpstream New
      { Mode := "", NetAddr := "localhost:8080", Token := "" }
      { Mode := "", NetAddr := "localhost:8080", Token := "" } World.start rfl).2.1 rfl).2⟩

/-- When the loop returns a nil error, the header and payset it returns are those
of a block that the upstream served for the requested round. -/
theorem getBlockLoop_ok_block (lib : Lib Raw G Txn) (up : Upstream σ) (algodImp : algodImporter)
    (rnd : Nat) :
    ∀ (n : Nat) (blk : data.BlockData Txn) (w : World σ),
      (getBlockLoop lib up algodImp rnd n blk w).1.2 = none →
      ∃ s s1 bytes tmp, up.BlockRaw rnd s = (.ok bytes, s1) ∧ lib.decodeBlock bytes = .ok tmp
        ∧ (getBlockLoop lib up algodImp rnd n blk w).1.1.BlockHeader = tmp.Block.BlockHeader
        ∧ (getBlockLoop lib up algodImp rnd n blk w).1.1.Payset = tmp.Block.Payset
  | 0, blk, w, h => by simp [getBlockLoop] at h
  | n + 1, blk, w, h => by
    rcases hs : up.StatusAfterBlock (u64pred rnd) w.st with ⟨_ | e, s1⟩
    · rcases hb : up.BlockRaw rnd s1 with ⟨e | bytes, s2⟩
      · simp only [getBlockLoop, hs, hb] at h ⊢
        exact getBlockLoop_ok_block lib up algodImp rnd n blk _ h
      · cases hdec : lib.decodeBlock bytes with
        | error e => simp [getBlockLoop, hs, hb, hdec] at h
        | ok tmp =>
          by_cases hmode : algodImp.mode = followerMode
          · by_cases hrnd : rnd = 0
            · subst hrnd
              simp only [getBlockLoop, hs, hb, hdec, hmode, if_true, ne_eq,
                not_true_eq_false, if_false]
              exact ⟨s1, s2, bytes, tmp, hb, hdec, rfl, rfl⟩
            · rcases hd : algodImporter.getDelta lib up rnd
                ((w.record (.StatusAfterBlock (u64pred rnd)) s1).record (.BlockRaw rnd) s2)
                with ⟨e | delta, w3⟩
              · simp only [getBlockLoop, hs, hb, hdec, hmode, hrnd, hd, if_true, ne_eq,
                  not_false_eq_true] at h ⊢
                exact getBlockLoop_ok_block lib up algodImp rnd n _ _ h
              · simp only [getBlockLoop, hs, hb, hdec, hmode, hrnd, hd, if_true, ne_eq,
                  not_false_eq_true]
                exact ⟨s1, s2, bytes, tmp, hb, hdec, rfl, rfl⟩
          · simp only [getBlockLoop, hs, hb, hdec, hmode, if_false]
            exact ⟨s1, s2, bytes, tmp, hb, hdec, rfl, rfl⟩
    · cases hctx : up.ctxErr s1 with
      | some c => simp [getBlockLoop, hs, hctx] at h
      | none =>
        simp only [getBlockLoop, hs, hctx] at h ⊢
        exact getBlockLoop_ok_block lib up algodImp rnd n blk _ h

/-- C10, as stated, fails: the upstream serves the block of round 7 for round 3,
and `GetBlock 3` returns it with a nil error. -/
theorem getBlock_returns_upstream_round :
    (New.GetBlock sampleLib staleUpstream 3 World.start).1.2 = none
      ∧ (New.GetBlock sampleLib staleUpstream 3 World.start).1.1.BlockHeader.Round = 7 := by
  decide

/-- C10 (as amended): when every block the upstream serves for round `rnd` carries
the header round `rnd`, and `GetBlock rnd` returns a nil error, the returned block
data has header round `rnd`. -/
theorem getBlock_round_matches_when_upstream_does (lib : Lib Raw G Txn) (up : Upstream σ)
    (algodImp : algodImporter) (rnd : Nat) (w : World σ)
    (hup : ∀ s s1 bytes tmp, up.BlockRaw rnd s = (.ok bytes, s1) →
      lib.decodeBlock bytes = .ok tmp → tmp.Block.BlockHeader.Round = rnd)
    (hok : (algodImp.GetBlock lib up rnd w).1.2 = none) :
    (algodImp.GetBlock lib up rnd w).1.1.BlockHeader.Round = rnd := by
  obtain ⟨s, s1, bytes, tmp, hb, hdec, hhdr, _⟩ :=
    getBlockLoop_ok_block lib up algodImp rnd retries data.BlockData.zero w hok
  unfold algodImporter.GetBlock
  rw [hhdr]
  exact hup s s1 bytes tmp hb hdec

/-- C10 (as amended) on the echoing upstream, in follower mode, for round 3. -/
theorem getBlock_round_matches_when_upstream_does_witness :
    (followerImporter.GetBlock sampleLib echoUpstream 3 World.start).1.1.BlockHeader.Round = 3 :=
  getBlock_round_matches_when_upstream_does sampleLib echoUpstream followerImporter 3
    World.start
    (by
      intro s s1 bytes tmp hb hdec
      simp only [echoUpstream, Prod.mk.injEq, Except.ok.injEq] at hb
      obtain ⟨rfl, _⟩ := hb
      simp only [sampleLib, Except.ok.injEq] at hdec
      subst hdec
      rfl)
    (by decide)

end ImporterTheorems

end algodimporter

/-! ## Theorems: `byteArray` text codec -/

namespace encoding

/-- Decoding the character of a six-bit value gives the value back. -/
theorem decodeSextet_encodeSextet (n : Nat) (h : n < 64) :
    decodeSextet (encodeSextet n) = some n := by
  unfold encodeSextet decodeSextet
  split_ifs <;> first | omega | (simp only [Option.some.injEq]; omega)

/-- No character of the alphabet is the padding character, a line feed or a
carriage return. -/
theorem encodeSextet_plain (n : Nat) :
    encodeSextet n ≠ padChar ∧ encodeSextet n ≠ 10 ∧ encodeSextet n ≠ 13 := by
  unfold encodeSextet padChar
  split_ifs <;> omega

/-- The encoder writes no line break, so the decoder skips nothing of its output. -/
theorem filter_Base64 : ∀ bs : Bytes,
    (Base64 bs).filter (fun c => c != 10 && c != 13) = Base64 bs
  | [] => by simp [Base64]
  | [a] => by
    simp [Base64, padChar, (encodeSextet_plain (a / 4)).2,
      (encodeSextet_plain (a % 4 * 16)).2]
  | [a, b] => by
    simp [Base64, padChar, (encodeSextet_plain (a / 4)).2,
      (encodeSextet_plain (a % 4 * 16 + b / 16)).2, (encodeSextet_plain (b % 16 * 4)).2]
  | a :: b :: c :: rest => by
    simp [Base64, (encodeSextet_plain (a / 4)).2,
      (encodeSextet_plain (a % 4 * 16 + b / 16)).2,
      (encodeSextet_plain (b % 16 * 4 + c / 64)).2, (encodeSextet_plain (c % 64)).2,
      filter_Base64 rest]

/-- The quantum decoder inverts the encoder on byte strings. -/
theorem decodeQuanta_Base64 : ∀ bs : Bytes, (∀ b ∈ bs, b < 256) →
    decodeQuanta (Base64 bs) = .ok bs
  | [], _ => by simp [Base64, decodeQuanta]
  | [a], h => by
    have ha : a < 256 := h a (by simp)
    have e0 := decodeSextet_encodeSextet (a / 4) (by omega)
    have e1 := decodeSextet_encodeSextet (a % 4 * 16) (by omega)
    simp only [Base64, decodeQuanta, e0, e1, if_true, ne_eq, not_true_eq_false, if_false,
      Except.ok.injEq, List.cons.injEq, and_true]
    omega
  | [a, b], h => by
    have ha : a < 256 := h a (by simp)
    have hb : b < 256 := h b (by simp)
    have e0 := decodeSextet_encodeSextet (a / 4) (by omega)
    have e1 := decodeSextet_encodeSextet (a % 4 * 16 + b / 16) (by omega)
    have e2 := decodeSextet_encodeSextet (b % 16 * 4) (by omega)
    have p2 := (encodeSextet_plain (b % 16 * 4)).1
    simp only [Base64, decodeQuanta, e0, e1, e2, p2, if_true, ne_eq, not_true_eq_false,
      if_false, Except.ok.injEq, List.cons.injEq, and_true]
    omega
  | a :: b :: c :: rest, h => by
    have ha : a < 256 := h a (by simp)
    have hb : b < 256 := h b (by simp)
    have hc : c < 256 := h c (by simp)
    have hrest : ∀ x ∈ rest, x < 256 := fun x hx => h x (by simp [hx])
    have e0 := decodeSextet_encodeSextet (a / 4) (by omega)
    have e1 := decodeSextet_encodeSextet (a % 4 * 16 + b / 16) (by omega)
    have e2 := decodeSextet_encodeSextet (b % 16 * 4 + c / 64) (by omega)
    have e3 := decodeSextet_encodeSextet (c % 64) (by omega)
    have p3 := (encodeSextet_plain (c % 64)).1
    simp only [Base64, decodeQuanta, e0, e1, e2, e3, p3, if_false,
      decodeQuanta_Base64 rest hrest, Except.ok.injEq, List.cons.injEq, and_true]
    omega

/-- Decoding inverts encoding on byte strings. -/
theorem decodeBase64_Base64 (bs : Bytes) (h : ∀ b ∈ bs, b < 256) :
    decodeBase64 (Base64 bs) = .ok bs := by
  unfold decodeBase64
  rw [filter_Base64, decodeQuanta_Base64 bs h]

/-- C11: the `byteArray` text codec round-trips.  For every byte array `ba` (any
string of bytes), `MarshalText` returns a nil error, and `UnmarshalText` applied
to its output, on any receiver, returns a nil error and sets the receiver to
`ba`; hence two byte arrays with the same text are equal, so distinct keys stay
distinct through encoding. -/
theorem byteArray_text_roundtrip (ba recv : byteArray) (h : ba.IsBytes) :
    ba.MarshalText.2 = none
      ∧ recv.UnmarshalText ba.MarshalText.1 = (ba, none)
      ∧ ∀ other : byteArray, other.IsBytes → other.MarshalText.1 = ba.MarshalText.1 →
          other = ba := by
  have hrt : ∀ (x r : byteArray), x.IsBytes → r.UnmarshalText x.MarshalText.1 = (x, none) := by
    intro x r hx
    simp only [byteArray.UnmarshalText, byteArray.MarshalText, decodeBase64_Base64 x.data hx]
  refine ⟨rfl, hrt ba recv h, ?_⟩
  intro other ho heq
  have h1 := hrt other recv ho
  rw [heq, hrt ba recv h] at h1
  exact (congrArg Prod.fst h1).symm

/-- C11 at the empty byte array and at one that is not UTF-8. -/
theorem byteArray_text_roundtrip_witness :
    (byteArray.mk [7]).UnmarshalText (byteArray.mk []).MarshalText.1 = (byteArray.mk [], none)
      ∧ (byteArray.mk []).UnmarshalText (byteArray.mk [255, 254, 0, 128]).MarshalText.1
          = (byteArray.mk [255, 254, 0, 128], none) :=
  ⟨(byteArray_text_roundtrip (byteArray.mk []) (byteArray.mk [7])
      (by unfold byteArray.IsBytes; decide)).2.1,
   (byteArray_text_roundtrip (byteArray.mk [255, 254, 0, 128]) (byteArray.mk [])
      (by unfold byteArray.IsBytes; decide)).2.1⟩

end encoding

end Indexer
